import Mathlib

/-!
Verification of the hybrid persistence and synchronization core of the
gmot-files web client (a local-first file organizer backed by a remote
Supabase collaborator).

The development shallowly embeds the storage layer of the repository:

* `src/lib/storage.ts` — the IndexedDB file store and the localStorage
  folder slot (`saveFileToDB`, `getFilesFromDB`, `deleteFileFromDB`,
  `saveFolders`, `loadFolders`, `getStorageUsage`);
* `src/hooks/useFileStorage.ts` — the in-memory mutations (`deleteFolder`,
  `removeFile`) layered over that store;
* `src/hooks/useHybridStorage.ts` — the wrapper hook whose mutation
  wrappers and debounce effect trigger background sync passes;
* `src/lib/supabase/syncService.ts` — `syncFilesToSupabase`, the
  reconciliation pass against the remote row store;
* `src/lib/supabase/fileService.ts` — `uploadFile` / `storeFileLocally`
  (the size-based storage router) and `shareFile` (the sharing ledger).

Machine integers do not overflow in any of this TypeScript (sizes are far
below 2^53), so sizes and timestamps are modeled as `Nat`; raw payload
bytes are modeled as `List Nat`; fallible operations return `Except`.
-/

namespace GmotFiles

/-! ## Local Blob Store: IndexedDB model (`src/lib/storage.ts`)

The `files` object store is keyed by `id` (keyPath). `store.put` inserts
or overwrites the record with that key; `store.getAll` returns every
stored record; `store.delete` removes the record with the key and
succeeds even when the key is absent. The store is modeled as a list of
records, `put` replacing in place when the id is present and appending
otherwise. -/

/-- `StoredFileData` from `src/lib/storage.ts`: the record persisted in
IndexedDB. An `ArrayBuffer` payload is modeled as its byte list. -/
structure StoredFileData where
  id : String
  name : String
  size : Nat
  type : String
  folderId : Option String
  textContent : Option String
  fileData : List Nat
deriving DecidableEq, Repr

/-- `saveFileToDB` (`storage.ts` lines 44-54): `store.put(file)` with
keyPath `id` — overwrite the record with the same id when present,
insert otherwise. -/
def saveFileToDB (db : List StoredFileData) (r : StoredFileData) : List StoredFileData :=
  if db.any (fun x => x.id == r.id) then
    db.map (fun x => if x.id == r.id then r else x)
  else
    db ++ [r]

/-- `getFilesFromDB` (`storage.ts` lines 57-67): `store.getAll()` returns
every stored record. -/
def getFilesFromDB (db : List StoredFileData) : List StoredFileData :=
  db

/-- `deleteFileFromDB` (`storage.ts` lines 70-80): `store.delete(id)`;
IndexedDB delete succeeds whether or not the key is present, so it is a
total function on the store. -/
def deleteFileFromDB (db : List StoredFileData) (id : String) : List StoredFileData :=
  db.filter (fun f => f.id != id)

/-- The number of records in `db` whose id equals `id`. -/
def countById (db : List StoredFileData) (id : String) : Nat :=
  db.countP (fun x => x.id == id)

/-- `getStorageUsage` (`storage.ts` lines 126-155): the used-bytes figure
sums, over every stored record, the payload byte length plus the name
length, and then adds the size of the folder slot in localStorage. The
best-effort quota is environment data and is not modeled. -/
def getStorageUsage (db : List StoredFileData) (folderSlotBytes : Nat) : Nat :=
  db.foldl (fun acc f => acc + f.fileData.length + f.name.length) 0 + folderSlotBytes

/-! ## In-memory file state (`src/hooks/useFileStorage.ts`)

The hook holds the files in a React state list of `DroppedFile`s. The
fields that the storage layer reads or writes are modeled; the `File`
object itself is modeled by its byte payload. -/

/-- The `DroppedFile` fields relevant to the storage core
(`src/types/file.ts`): the live `File` handle is modeled by its bytes. -/
structure MemFile where
  id : String
  name : String
  size : Nat
  type : String
  payload : List Nat
  textContent : Option String
  folderId : Option String
deriving DecidableEq, Repr

/-- The in-memory part of `removeFile` (`useFileStorage.ts` lines
334-348): `prev.filter(f => f.id !== id)`; the IndexedDB part is
`deleteFileFromDB`. -/
def removeFileMem (files : List MemFile) (id : String) : List MemFile :=
  files.filter (fun f => f.id != id)

/-! ## Local Metadata Store: the localStorage folder slot
(`src/lib/storage.ts` lines 95-123)

`saveFolders` serializes the folder list to JSON under one key;
`loadFolders` reads the key and parses. A `Date` and its `toISOString`
image determine each other (both directions are modeled by the epoch
value `createdAt : Nat`). The raw slot content is modeled by what
`JSON.parse` can see in it: invalid JSON (`JSON.parse` throws), valid
JSON that is not an array (`parsed.map` throws), or an array of stored
folder objects. Both throwing shapes land in the `catch` of
`loadFolders`, which returns the empty list. -/

/-- `Folder` as held in memory (`src/types/file.ts`): `createdAt` is a
`Date`, modeled by its epoch value. -/
structure Folder where
  id : String
  name : String
  color : String
  createdAt : Nat
deriving DecidableEq, Repr

/-- `StoredFolder` (`storage.ts` lines 19-24): `createdAt` is the ISO
string image of the date, modeled by the instant it denotes. -/
structure StoredFolder where
  id : String
  name : String
  color : String
  createdAt : Nat
deriving DecidableEq, Repr

/-- The serialization step of `saveFolders` (`storage.ts` lines 96-102):
`createdAt` goes through `toISOString`. -/
def encodeStoredFolder (f : Folder) : StoredFolder :=
  ⟨f.id, f.name, f.color, f.createdAt⟩

/-- The decoding step of `loadFolders` (`storage.ts` lines 111-114):
`createdAt` goes through `new Date(...)`. -/
def decodeStoredFolder (f : StoredFolder) : Folder :=
  ⟨f.id, f.name, f.color, f.createdAt⟩

/-- The shapes the raw string under the folders key can have, as far as
`loadFolders` can distinguish them. -/
inductive RawContent
  | invalidJson
  | jsonNonArray
  | jsonArrayOf (folders : List StoredFolder)
deriving DecidableEq, Repr

/-- The localStorage slot: the key is absent or holds raw content. -/
inductive RawSlot
  | absent
  | stored (c : RawContent)
deriving DecidableEq, Repr

/-- The body of the `try` in `loadFolders` (`storage.ts` lines 110-114):
`JSON.parse` throws on invalid JSON, `parsed.map` throws when the parsed
value is not an array, and otherwise each element is decoded. -/
def parseFolderSlot : RawContent → Except Unit (List Folder)
  | RawContent.invalidJson => Except.error ()
  | RawContent.jsonNonArray => Except.error ()
  | RawContent.jsonArrayOf l => Except.ok (l.map decodeStoredFolder)

/-- `loadFolders` (`storage.ts` lines 105-118): empty list when the key
is absent; otherwise the `try` body, with the `catch` turning any throw
into the empty list. -/
def loadFolders : RawSlot → List Folder
  | RawSlot.absent => []
  | RawSlot.stored c =>
    match parseFolderSlot c with
    | Except.ok l => l
    | Except.error _ => []

/-- `saveFolders` (`storage.ts` lines 96-102): overwrites the slot with
the JSON array of encoded folders. -/
def saveFolders (folders : List Folder) : RawSlot :=
  RawSlot.stored (RawContent.jsonArrayOf (folders.map encodeStoredFolder))

/-! ## `deleteFolder` (`useFileStorage.ts` lines 379-406)

`setFiles(prev => prev.map(f => f.folderId === folderId ? {...f,
folderId: null} : f))` reparents the folder's files to root, and
`setFolders(prev => prev.filter(f => f.id !== folderId))` drops the
folder; the persistence effect then runs `saveFolders` on the new
folder list. -/

/-- The file-state update of `deleteFolder`. -/
def deleteFolderFiles (folderId : String) (files : List MemFile) : List MemFile :=
  files.map (fun f =>
    if f.folderId == some folderId then { f with folderId := none } else f)

/-- The folder-state update of `deleteFolder`. -/
def deleteFolderFolders (folderId : String) (folders : List Folder) : List Folder :=
  folders.filter (fun f => f.id != folderId)

/-! ## Storage Router (`src/lib/supabase/fileService.ts`)

`uploadFile` (lines 122-178) sends files over `MAX_LOCAL_FILE_SIZE`
(5MB) straight to Supabase Storage and hands the rest to
`storeFileLocally` (lines 555-610), which sends files over a 1MB limit
straight to Supabase Storage, and otherwise reads the file as a data
URL and attempts `localStorage.setItem`, falling back to Supabase
Storage when the reader errors, when the encoded data exceeds a 4MB
safety margin, or when `setItem` throws. The nondeterministic
environment (the data URL the reader produces, whether the reader and
`setItem` succeed) is passed explicitly. -/

/-- The two destinations a blob can actually end in: a `local:<key>`
path in localStorage or a public URL in the Supabase bucket. -/
inductive StorageTier
  | localStorageTier
  | supabaseStorageTier
deriving DecidableEq, Repr

/-- `MAX_LOCAL_FILE_SIZE` (`fileService.ts` line 4). -/
def MAX_LOCAL_FILE_SIZE : Nat := 5 * 1024 * 1024

/-- The localStorage size check of `storeFileLocally` (line 557). -/
def LOCAL_STORAGE_LIMIT : Nat := 1 * 1024 * 1024

/-- The encoded-data safety margin of `storeFileLocally` (line 576). -/
def DATA_SAFETY_MARGIN : Nat := 4 * 1024 * 1024

/-- The storage environment `storeFileLocally` runs against. -/
structure UploadEnv where
  dataUrlLength : Nat
  readerOk : Bool
  setItemOk : Bool
deriving DecidableEq, Repr

/-- `storeFileLocally` (`fileService.ts` lines 555-610), returning the
tier the blob ends in together with whether `localStorage.setItem` was
ever attempted. -/
def storeFileLocally (size : Nat) (env : UploadEnv) : StorageTier × Bool :=
  if size > LOCAL_STORAGE_LIMIT then (StorageTier.supabaseStorageTier, false)
  else if env.readerOk = false then (StorageTier.supabaseStorageTier, false)
  else if env.dataUrlLength > DATA_SAFETY_MARGIN then (StorageTier.supabaseStorageTier, false)
  else if env.setItemOk then (StorageTier.localStorageTier, true)
  else (StorageTier.supabaseStorageTier, true)

/-- The routing decision of `uploadFile` (`fileService.ts` lines
134-141): at most `MAX_LOCAL_FILE_SIZE` goes through
`storeFileLocally`, above it goes to Supabase Storage directly. -/
def uploadFileRoute (size : Nat) (env : UploadEnv) : StorageTier × Bool :=
  if size ≤ MAX_LOCAL_FILE_SIZE then storeFileLocally size env
  else (StorageTier.supabaseStorageTier, false)

/-- The three tiers the spec's section 4.3 names. -/
inductive SpecTier
  | inlineLocal
  | deviceStorage
  | remoteObjectStore
deriving DecidableEq, Repr

/-- Modelled from the spec (section 4.3), for comparison with
`uploadFileRoute`: attempt inline-local when the size is at most the
small-file threshold; on capacity failure or a size above the
threshold escalate to device-storage; only when device-storage fails
or the size exceeds the hard ceiling (five times the threshold)
escalate to remote-object-store. -/
def specRouterChain (size threshold : Nat) (inlineOk deviceOk : Bool) : SpecTier :=
  if size ≤ threshold && inlineOk then SpecTier.inlineLocal
  else if size ≤ 5 * threshold && deviceOk then SpecTier.deviceStorage
  else SpecTier.remoteObjectStore

/-! ## The hybrid hook (`src/hooks/useHybridStorage.ts`)

`syncToSupabase` (lines 25-35) sets `isSyncing`, runs a sync pass and
clears the flag; nothing ever consults the flag before starting a
pass. Every mutation wrapper (lines 44-83) awaits its local mutation
and then calls `syncToSupabase()` directly. Separately, the effect at
lines 38-41 restarts a 1-second timer whenever the files or folders
state changes (the identity of `syncToSupabase` changes with them), and
the timer itself starts one pass; the effect also runs on mount, so a
timer is pending from the first render on.

The visible events are modeled as a state machine: a `mutate` event is
one mutation-wrapper call (it starts a pass immediately and leaves the
debounce timer pending for the new state), `timerFire` is the pending
debounce timer expiring (it starts a pass), and `passEnd` is one
running pass completing. -/

/-- The observable state of the hook: whether a debounce timer is
pending, how many passes are running, and how many were ever started. -/
structure HookState where
  timerPending : Bool
  inFlight : Nat
  started : Nat
deriving DecidableEq, Repr

/-- The events the hook reacts to. -/
inductive HookEvent
  | mutate
  | timerFire
  | passEnd
deriving DecidableEq, Repr

/-- One step of the hook: a wrapper call starts a pass at once (no
in-flight check) and leaves a restarted timer pending; an expiring
timer starts a pass; a completing pass leaves the flight count. -/
def stepHook (s : HookState) : HookEvent → HookState
  | HookEvent.mutate =>
    { timerPending := true, inFlight := s.inFlight + 1, started := s.started + 1 }
  | HookEvent.timerFire =>
    if s.timerPending then
      { timerPending := false, inFlight := s.inFlight + 1, started := s.started + 1 }
    else s
  | HookEvent.passEnd => { s with inFlight := s.inFlight - 1 }

/-- Run the hook over a list of events. -/
def runHook (s : HookState) : List HookEvent → HookState
  | [] => s
  | e :: es => runHook (stepHook s e) es

/-- The state after mount: the effect has run once, so a timer is
pending; no pass has started. -/
def hookInit : HookState :=
  { timerPending := true, inFlight := 0, started := 0 }

/-! ## Reconciliation pass (`src/lib/supabase/syncService.ts`)

`syncFilesToSupabase` (lines 9-60) returns early when there is no
authenticated user. Otherwise it walks the local folders: each
iteration re-fetches the remote folders (`fileService.getFolders`),
checks for one with the same name, and creates the folder remotely when
none exists. It then walks the local files the same way
(`fileService.getFiles`, match by name, `fileService.uploadFile`).
Remote rows only ever get appended by this pass. Two models are given:
a failure-free one for the idempotence claim, and one threaded with a
per-item failure oracle reflecting the per-item `try`/`catch` for the
isolation claim. -/

/-- A remote folder row as the name/color the pass creates. -/
structure RFolder where
  name : String
  color : String
deriving DecidableEq, Repr

/-- A remote file row as the name the pass matches on. -/
structure RFile where
  name : String
deriving DecidableEq, Repr

/-- The local folder fields the pass reads. -/
structure LFolder where
  id : String
  name : String
  color : String
deriving DecidableEq, Repr

/-- The local file fields the pass reads. -/
structure LFile where
  id : String
  name : String
deriving DecidableEq, Repr

/-- The remote row store the pass converges against. -/
structure RemoteState where
  folders : List RFolder
  files : List RFile
deriving DecidableEq, Repr

/-- The folder loop (lines 21-36), failure-free: the remote list is
re-read each iteration, a missing name is created (appended), and the
number of creations is returned with the final remote list. -/
def syncFoldersPass : List RFolder → List LFolder → List RFolder × Nat
  | remote, [] => (remote, 0)
  | remote, l :: ls =>
    if remote.any (fun rf => rf.name == l.name) then
      syncFoldersPass remote ls
    else
      let p := syncFoldersPass (remote ++ [⟨l.name, l.color⟩]) ls
      (p.1, p.2 + 1)

/-- The file loop (lines 38-54), failure-free, same shape. -/
def syncFilesPass : List RFile → List LFile → List RFile × Nat
  | remote, [] => (remote, 0)
  | remote, l :: ls =>
    if remote.any (fun rf => rf.name == l.name) then
      syncFilesPass remote ls
    else
      let p := syncFilesPass (remote ++ [⟨l.name⟩]) ls
      (p.1, p.2 + 1)

/-- `syncFilesToSupabase` (lines 9-60), failure-free: no-op without a
user; otherwise folders are reconciled, then files; the second
component counts the remote creations the pass performed. -/
def syncFilesToSupabase (user : Bool) (st : RemoteState)
    (localFiles : List LFile) (localFolders : List LFolder) : RemoteState × Nat :=
  if user then
    let pFolders := syncFoldersPass st.folders localFolders
    let pFiles := syncFilesPass st.files localFiles
    ({ folders := pFolders.1, files := pFiles.1 }, pFolders.2 + pFiles.2)
  else (st, 0)

/-- One folder iteration body as the `try` sees it: when the remote
collaborator throws for this item the body errors with the item name;
otherwise it yields the new remote list. -/
def folderAttempt (failed : Bool) (remote : List RFolder) (l : LFolder) :
    Except String (List RFolder) :=
  if failed then Except.error l.name
  else if remote.any (fun rf => rf.name == l.name) then Except.ok remote
  else Except.ok (remote ++ [⟨l.name, l.color⟩])

/-- One file iteration body as the `try` sees it. -/
def fileAttempt (failed : Bool) (remote : List RFile) (l : LFile) :
    Except String (List RFile) :=
  if failed then Except.error l.name
  else if remote.any (fun rf => rf.name == l.name) then Except.ok remote
  else Except.ok (remote ++ [⟨l.name⟩])

/-- The `catch` of one iteration: a throw leaves the remote list as it
was (the failure is only logged). -/
def catchOr {α : Type} (d : α) : Except String α → α
  | Except.ok r => r
  | Except.error _ => d

/-- The folder loop with its per-item `catch` (lines 33-35): a throwing
item leaves the remote list as it was and the loop continues; the
names of the items the loop reached are logged in order. `i` is the
index of the first item, fed to the failure oracle. -/
def syncFoldersCatch (fail : Nat → Bool) :
    List RFolder → List LFolder → Nat → List RFolder × List String
  | remote, [], _ => (remote, [])
  | remote, l :: ls, i =>
    let p := syncFoldersCatch fail (catchOr remote (folderAttempt (fail i) remote l)) ls (i + 1)
    (p.1, l.name :: p.2)

/-- The file loop with its per-item `catch` (lines 51-53). -/
def syncFilesCatch (fail : Nat → Bool) :
    List RFile → List LFile → Nat → List RFile × List String
  | remote, [], _ => (remote, [])
  | remote, l :: ls, i =>
    let p := syncFilesCatch fail (catchOr remote (fileAttempt (fail i) remote l)) ls (i + 1)
    (p.1, l.name :: p.2)

/-- The whole pass under per-item failures: folders first, then files;
returns the final remote state and the two logs of reached items. -/
def syncPassCatch (failFolder failFile : Nat → Bool) (st : RemoteState)
    (localFiles : List LFile) (localFolders : List LFolder) :
    RemoteState × List String × List String :=
  let pFolders := syncFoldersCatch failFolder st.folders localFolders 0
  let pFiles := syncFilesCatch failFile st.files localFiles 0
  ({ folders := pFolders.1, files := pFiles.1 }, pFolders.2, pFiles.2)

/-! ## Sharing Ledger (`fileService.ts` lines 286-344)

`shareFile` looks the recipient up by email (`ilike` with no wildcard:
case-insensitive match, first row), checks for an authenticated caller,
fetches the target row, rejects a caller who is not the owner, rejects
a recipient already in the denormalized `shared_with` array, and
otherwise appends the recipient to `shared_with` and inserts a row in
`file_shares`. The remote tables are modeled as row lists and
`.single()` / `limit(1)` as first-match lookups. -/

/-- A `gmot.users` row. -/
structure UserRow where
  id : String
  email : String
deriving DecidableEq, Repr

/-- A `gmot.files` row, restricted to the columns `shareFile` touches. -/
structure FileRow where
  id : String
  userId : String
  sharedWith : List String
deriving DecidableEq, Repr

/-- The permission levels of `shareFile`. -/
inductive Permission
  | view
  | edit
  | admin
deriving DecidableEq, Repr

/-- A `gmot.file_shares` row. -/
structure ShareRow where
  fileId : String
  ownerId : String
  sharedWithId : String
  permission : Permission
deriving DecidableEq, Repr

/-- The slice of the remote database `shareFile` reads and writes,
together with the authenticated principal. -/
structure ShareDb where
  users : List UserRow
  files : List FileRow
  shares : List ShareRow
  currentUser : Option String
deriving DecidableEq, Repr

/-- Lowercasing for `ilike`, character by character (`ilike` on these
ASCII emails is case-insensitive equality). -/
def lowerStr (s : String) : String :=
  ⟨s.data.map Char.toLower⟩

/-- `ilike` with no wildcard: case-insensitive equality. -/
def emailMatches (a b : String) : Bool :=
  lowerStr a == lowerStr b

/-- The recipient lookup (lines 288-292): first user whose email
matches case-insensitively. -/
def findUserByEmail (users : List UserRow) (email : String) : Option UserRow :=
  users.find? (fun u => emailMatches u.email email)

/-- The target fetch (lines 305-309): `.single()` on `id = fileId`,
modeled as the first matching row. -/
def findFileRow (files : List FileRow) (fid : String) : Option FileRow :=
  files.find? (fun f => f.id == fid)

/-- The outcomes `shareFile` can throw. -/
inductive ShareError
  | userNotFound
  | notAuthenticated
  | forbidden
  | alreadyShared
deriving DecidableEq, Repr

/-- The database after a successful share: the target row's
`shared_with` gains the recipient and a grant row is appended. -/
def shareSuccessDb (db : ShareDb) (fileId uid rid : String) (p : Permission) : ShareDb :=
  { db with
    files := db.files.map (fun f =>
      if f.id == fileId then { f with sharedWith := f.sharedWith ++ [rid] } else f)
    shares := db.shares ++ [⟨fileId, uid, rid, p⟩] }

/-- `shareFile` (`fileService.ts` lines 286-344). The `!file` and
not-owner cases throw the same ownership error in the source, so both
map to `forbidden`. -/
def shareFile (db : ShareDb) (fileId userEmail : String) (permission : Permission) :
    Except ShareError ShareDb :=
  match findUserByEmail db.users userEmail with
  | none => Except.error ShareError.userNotFound
  | some recipient =>
    match db.currentUser with
    | none => Except.error ShareError.notAuthenticated
    | some uid =>
      match findFileRow db.files fileId with
      | none => Except.error ShareError.forbidden
      | some file =>
        if file.userId != uid then Except.error ShareError.forbidden
        else if file.sharedWith.any (fun x => x == recipient.id) then
          Except.error ShareError.alreadyShared
        else Except.ok (shareSuccessDb db fileId uid recipient.id permission)

/-! ## Frame relation and concrete fixtures -/

/-- The frame `deleteFolder` is claimed to respect, file by file: every
field except `folderId` is kept, a file in the deleted folder is
reparented to root, and any other file keeps its `folderId`. -/
def deleteFolderFrame (fid : String) (f g : MemFile) : Prop :=
  g.id = f.id ∧ g.name = f.name ∧ g.size = f.size ∧ g.type = f.type ∧
  g.payload = f.payload ∧ g.textContent = f.textContent ∧
  (f.folderId ≠ some fid → g.folderId = f.folderId) ∧
  (f.folderId = some fid → g.folderId = none)

/-- A two-file in-memory state: one file in folder `f1`, one in `f2`. -/
def sampleMemFiles : List MemFile :=
  [⟨"a", "a.txt", 3, "text/plain", [1, 2, 3], none, some "f1"⟩,
   ⟨"b", "b.txt", 2, "text/plain", [4, 5], none, some "f2"⟩]

/-- Two folders `f1` and `f2`. -/
def sampleFolders : List Folder :=
  [⟨"f1", "Docs", "210 100% 50%", 100⟩, ⟨"f2", "Pics", "0 100% 50%", 200⟩]

/-- Three local folders, used to exercise a failure on the middle one. -/
def sampleLFolders : List LFolder :=
  [⟨"1", "A", "blue"⟩, ⟨"2", "B", "red"⟩, ⟨"3", "C", "green"⟩]

/-- A remote database with two principals and one file owned by the
authenticated caller and not yet shared. -/
def sampleShareDb : ShareDb :=
  { users := [⟨"alice", "alice@example.com"⟩, ⟨"bob", "bob@example.com"⟩]
    files := [⟨"f1", "alice", []⟩]
    shares := []
    currentUser := some "alice" }

/-! # Theorems -/

/-- Claim C6: `saveFileToDB` followed by `getFilesFromDB` yields a
collection containing a record bit-identical to the stored one in
payload (`fileData`) and every metadata field (record equality is
field-wise equality); and putting with an existing id overwrites,
leaving a single record for that id (given the keyPath invariant that
the store held at most one record for it before). -/
theorem saveFile_getAll_roundtrip (db : List StoredFileData) (r : StoredFileData) :
    r ∈ getFilesFromDB (saveFileToDB db r) ∧
    (countById db r.id ≤ 1 → countById (saveFileToDB db r) r.id = 1) := by
  constructor
  · unfold getFilesFromDB saveFileToDB
    by_cases h : db.any (fun x => x.id == r.id) = true
    · rw [if_pos h]
      obtain ⟨x, hx, hid⟩ := List.any_eq_true.mp h
      exact List.mem_map.mpr ⟨x, hx, by simp [hid]⟩
    · rw [if_neg h]
      simp
  · intro hle
    unfold saveFileToDB countById
    by_cases h : db.any (fun x => x.id == r.id) = true
    · rw [if_pos h, List.countP_map]
      have hcong : db.countP
          ((fun x => x.id == r.id) ∘ (fun x => if x.id == r.id then r else x)) =
          db.countP (fun x => x.id == r.id) := by
        apply List.countP_congr
        intro a _
        by_cases ha : a.id = r.id
        · simp [Function.comp, ha]
        · simp [Function.comp, ha]
      rw [hcong]
      have hpos : 0 < db.countP (fun x => x.id == r.id) := by
        obtain ⟨x, hx, hid⟩ := List.any_eq_true.mp h
        exact List.countP_pos_iff.mpr ⟨x, hx, hid⟩
      unfold countById at hle
      omega
    · rw [if_neg h, List.countP_append]
      have h0 : db.countP (fun x => x.id == r.id) = 0 := by
        apply List.countP_eq_zero.mpr
        intro a ha hpa
        exact h (List.any_eq_true.mpr ⟨a, ha, hpa⟩)
      rw [h0]
      simp

/-- Witness for C6 at a concrete store: overwriting the record with id
`a` leaves the new record retrievable and exactly one record under that
id. -/
theorem saveFile_getAll_roundtrip_witness :
    (⟨"a", "a.txt", 3, "text/plain", some "f1", none, [1, 2, 3]⟩ : StoredFileData) ∈
      getFilesFromDB (saveFileToDB [⟨"a", "old.txt", 1, "text/plain", none, none, [9]⟩]
        ⟨"a", "a.txt", 3, "text/plain", some "f1", none, [1, 2, 3]⟩) ∧
    countById (saveFileToDB [⟨"a", "old.txt", 1, "text/plain", none, none, [9]⟩]
        ⟨"a", "a.txt", 3, "text/plain", some "f1", none, [1, 2, 3]⟩) "a" = 1 := by
  have h := saveFile_getAll_roundtrip
    [⟨"a", "old.txt", 1, "text/plain", none, none, [9]⟩]
    ⟨"a", "a.txt", 3, "text/plain", some "f1", none, [1, 2, 3]⟩
  exact ⟨h.1, h.2 (by decide)⟩

/-- Claim C8: removing an absent id is a no-op that cannot throw: the
IndexedDB record set, the in-memory list and the reported storage usage
are all unchanged (`deleteFileFromDB` is total, IndexedDB `delete`
succeeding on a missing key). -/
theorem removeFile_absent_noop (db : List StoredFileData) (mem : List MemFile)
    (id : String) (folderSlotBytes : Nat)
    (hdb : ∀ f ∈ db, f.id ≠ id) (hmem : ∀ f ∈ mem, f.id ≠ id) :
    deleteFileFromDB db id = db ∧
    removeFileMem mem id = mem ∧
    getStorageUsage (deleteFileFromDB db id) folderSlotBytes =
      getStorageUsage db folderSlotBytes := by
  have h1 : deleteFileFromDB db id = db := by
    unfold deleteFileFromDB
    apply List.filter_eq_self.mpr
    intro a ha
    simp only [bne_iff_ne, ne_eq]
    exact hdb a ha
  have h2 : removeFileMem mem id = mem := by
    unfold removeFileMem
    apply List.filter_eq_self.mpr
    intro a ha
    simp only [bne_iff_ne, ne_eq]
    exact hmem a ha
  exact ⟨h1, h2, by rw [h1]⟩

/-- Witness for C8: deleting the id `zzz`, absent from a one-record
store, changes neither the store, nor the in-memory list, nor the
usage figure. -/
theorem removeFile_absent_noop_witness :
    deleteFileFromDB [⟨"a", "a.txt", 3, "text/plain", none, none, [1, 2, 3]⟩] "zzz" =
      [⟨"a", "a.txt", 3, "text/plain", none, none, [1, 2, 3]⟩] ∧
    removeFileMem [⟨"a", "a.txt", 3, "text/plain", [1, 2, 3], none, none⟩] "zzz" =
      [⟨"a", "a.txt", 3, "text/plain", [1, 2, 3], none, none⟩] ∧
    getStorageUsage
        (deleteFileFromDB [⟨"a", "a.txt", 3, "text/plain", none, none, [1, 2, 3]⟩] "zzz") 10 =
      getStorageUsage [⟨"a", "a.txt", 3, "text/plain", none, none, [1, 2, 3]⟩] 10 :=
  removeFile_absent_noop _ _ "zzz" 10 (by decide) (by decide)

/-- Claim C9: `loadFolders` never throws: an absent key, content that is
not valid JSON, and JSON of the wrong shape all land in the empty list,
and well-shaped content decodes to the folder list — for every slot the
result is either the decoded list or the empty list. -/
theorem loadFolders_total (s : RawSlot) :
    loadFolders s = [] ∨
    ∃ l, s = RawSlot.stored (RawContent.jsonArrayOf l) ∧
      loadFolders s = l.map decodeStoredFolder := by
  cases s with
  | absent => exact Or.inl rfl
  | stored c =>
    cases c with
    | invalidJson => exact Or.inl rfl
    | jsonNonArray => exact Or.inl rfl
    | jsonArrayOf l => exact Or.inr ⟨l, rfl, rfl⟩

/-- Claim C5: after `deleteFolder fid`, every file that sat in the
folder is reparented to root (`folderId = none` appears in the new file
state for it), the folder is gone from the folder list, and a
subsequent read of the persisted folder store (`loadFolders` after the
effect's `saveFolders`) returns exactly that folderless list. -/
theorem deleteFolder_spec (fid : String) (files : List MemFile) (folders : List Folder) :
    (∀ f ∈ files, f.folderId = some fid →
      { f with folderId := none } ∈ deleteFolderFiles fid files) ∧
    (∀ g ∈ deleteFolderFolders fid folders, g.id ≠ fid) ∧
    loadFolders (saveFolders (deleteFolderFolders fid folders)) =
      deleteFolderFolders fid folders := by
  refine ⟨?_, ?_, ?_⟩
  · intro f hf hfid
    unfold deleteFolderFiles
    exact List.mem_map.mpr ⟨f, hf, by simp [hfid]⟩
  · intro g hg
    unfold deleteFolderFolders at hg
    have hp := List.of_mem_filter hg
    simpa [bne_iff_ne] using hp
  · have hcomp : decodeStoredFolder ∘ encodeStoredFolder = id := by
      funext x; cases x; rfl
    simp [loadFolders, saveFolders, parseFolderSlot, List.map_map, hcomp]

/-- Witness for C5: deleting folder `f1` from the sample state
reparents the file `a` to root, and the surviving folder `f2` is not
the deleted one. -/
theorem deleteFolder_spec_witness :
    ({ id := "a", name := "a.txt", size := 3, type := "text/plain", payload := [1, 2, 3],
       textContent := none, folderId := none } : MemFile) ∈
      deleteFolderFiles "f1" sampleMemFiles ∧
    (⟨"f2", "Pics", "0 100% 50%", 200⟩ : Folder).id ≠ "f1" := by
  constructor
  · have h := (deleteFolder_spec "f1" sampleMemFiles sampleFolders).1
      ⟨"a", "a.txt", 3, "text/plain", [1, 2, 3], none, some "f1"⟩ (by decide) rfl
    simpa using h
  · exact (deleteFolder_spec "f1" sampleMemFiles sampleFolders).2.1
      ⟨"f2", "Pics", "0 100% 50%", 200⟩ (by decide)

/-- Claim C10: `deleteFolder` modifies no file field other than
`folderId`: the new file state is pointwise related to the old one (no
file added or removed) by keeping id, name, size, type, payload and
textContent, reparenting exactly the deleted folder's files and leaving
every other file's `folderId` unchanged. -/
theorem deleteFolder_frame (fid : String) (files : List MemFile) :
    List.Forall₂ (deleteFolderFrame fid) files (deleteFolderFiles fid files) := by
  unfold deleteFolderFiles
  rw [List.forall₂_map_right_iff]
  apply List.forall₂_same.mpr
  intro f _
  unfold deleteFolderFrame
  by_cases h : f.folderId = some fid
  · simp [h]
  · simp [h]

/-- Witness for C10 at the sample state: the frame relation holds of
the concrete before/after lists (applying the theorem at `f1`). -/
theorem deleteFolder_frame_witness :
    List.Forall₂ (deleteFolderFrame "f1") sampleMemFiles
      (deleteFolderFiles "f1" sampleMemFiles) :=
  deleteFolder_frame "f1" sampleMemFiles

/-- Running the hook over concatenated event lists composes. -/
theorem runHook_append (l1 l2 : List HookEvent) :
    ∀ s, runHook s (l1 ++ l2) = runHook (runHook s l1) l2 := by
  induction l1 with
  | nil => intro s; rfl
  | cons e es ih => intro s; exact ih (stepHook s e)

/-- A burst of wrapper calls from a timer-pending state: each call
starts one pass at once and the timer stays pending. -/
theorem runHook_mutate_burst (n : Nat) :
    ∀ i st, runHook { timerPending := true, inFlight := i, started := st }
      (List.replicate n HookEvent.mutate) =
      { timerPending := true, inFlight := i + n, started := st + n } := by
  induction n with
  | zero => intro i st; rfl
  | succ k ih =>
    intro i st
    rw [List.replicate_succ]
    show runHook { timerPending := true, inFlight := i + 1, started := st + 1 }
      (List.replicate k HookEvent.mutate) = _
    rw [ih]
    have h1 : i + 1 + k = i + (k + 1) := by omega
    have h2 : st + 1 + k = st + (k + 1) := by omega
    rw [h1, h2]

/-- Claim C1 fails on the code: `useHybridStorage`'s wrappers call
`syncToSupabase()` directly and nothing checks `isSyncing` before
starting a pass, so two wrapper calls inside the debounce window start
two passes, and both are in flight together — not one pass, and not a
single-flight regime. -/
theorem syncBurst_counterexample :
    (runHook hookInit [HookEvent.mutate, HookEvent.mutate]).started = 2 ∧
    (runHook hookInit [HookEvent.mutate, HookEvent.mutate]).inFlight = 2 := by
  decide

/-- Claim C1 as amended: a burst of `n` wrapper calls starts `n`
immediate passes (all possibly overlapping, with no in-flight guard),
while the state-change debounce effect keeps exactly one timer pending
across the burst, and that timer contributes exactly one further pass
— `n + 1` passes in total, not `1` and not `2n`. -/
theorem syncBurst_amended (n : Nat) :
    runHook hookInit (List.replicate n HookEvent.mutate ++ [HookEvent.timerFire]) =
      { timerPending := false, inFlight := n + 1, started := n + 1 } := by
  rw [runHook_append]
  unfold hookInit
  rw [runHook_mutate_burst]
  simp [runHook, stepHook, Nat.zero_add]

/-- Claim C2 fails on the code: the chain the spec describes would send
a 2MB file (above the 1MB inline threshold, below the 5MB hard ceiling,
all tiers healthy) to device-storage, but `uploadFile` routes it to
Supabase Storage directly — the code has no middle tier. -/
theorem storageRouter_counterexample :
    (uploadFileRoute (2 * 1024 * 1024) ⟨100, true, true⟩).1 =
      StorageTier.supabaseStorageTier ∧
    specRouterChain (2 * 1024 * 1024) (1024 * 1024) true true =
      SpecTier.deviceStorage := by
  decide

/-- Claim C2 as amended: the router is a two-tier escalation. A file
above the 5MB hard ceiling goes to Supabase Storage with no local
attempt; a file at most the ceiling but above the 1MB localStorage
limit also goes to Supabase Storage with no local attempt (there is no
intermediate tier); a file within the limit whose reader succeeds and
whose encoded data fits the 4MB margin attempts localStorage, landing
there exactly when `setItem` succeeds and escalating to Supabase
Storage when it throws; a reader failure or over-margin data escalates
without attempting `setItem`. No smaller tier is ever retried after
escalation (each file ends in exactly one tier). -/
theorem storageRouter_amended (size : Nat) (env : UploadEnv) :
    (MAX_LOCAL_FILE_SIZE < size →
      uploadFileRoute size env = (StorageTier.supabaseStorageTier, false)) ∧
    (size ≤ MAX_LOCAL_FILE_SIZE → LOCAL_STORAGE_LIMIT < size →
      uploadFileRoute size env = (StorageTier.supabaseStorageTier, false)) ∧
    (size ≤ LOCAL_STORAGE_LIMIT → env.readerOk = true →
      env.dataUrlLength ≤ DATA_SAFETY_MARGIN →
      uploadFileRoute size env =
        (if env.setItemOk then (StorageTier.localStorageTier, true)
         else (StorageTier.supabaseStorageTier, true))) ∧
    (size ≤ LOCAL_STORAGE_LIMIT →
      (env.readerOk = false ∨ DATA_SAFETY_MARGIN < env.dataUrlLength) →
      uploadFileRoute size env = (StorageTier.supabaseStorageTier, false)) := by
  have hlim : LOCAL_STORAGE_LIMIT ≤ MAX_LOCAL_FILE_SIZE := by decide
  refine ⟨?_, ?_, ?_, ?_⟩
  · intro h
    unfold uploadFileRoute
    rw [if_neg (Nat.not_le.mpr h)]
  · intro h1 h2
    unfold uploadFileRoute storeFileLocally
    rw [if_pos h1, if_pos h2]
  · intro h1 h2 h3
    unfold uploadFileRoute storeFileLocally
    rw [if_pos (le_trans h1 hlim), if_neg (Nat.not_lt.mpr h1),
      if_neg (by simp [h2]), if_neg (Nat.not_lt.mpr h3)]
  · intro h1 h2
    unfold uploadFileRoute storeFileLocally
    rw [if_pos (le_trans h1 hlim), if_neg (Nat.not_lt.mpr h1)]
    rcases h2 with h2 | h2
    · rw [if_pos h2]
    · cases hr : env.readerOk with
      | false => simp
      | true => rw [if_neg (by simp), if_pos h2]

/-- Witness for the amended C2: a 6MB file goes straight to Supabase
Storage with no local attempt, and a 512-byte file with a healthy
environment lands in localStorage. -/
theorem storageRouter_amended_witness :
    uploadFileRoute (6 * 1024 * 1024) ⟨0, true, true⟩ =
      (StorageTier.supabaseStorageTier, false) ∧
    uploadFileRoute 512 ⟨700, true, true⟩ = (StorageTier.localStorageTier, true) := by
  constructor
  · exact (storageRouter_amended (6 * 1024 * 1024) ⟨0, true, true⟩).1 (by decide)
  · have h := (storageRouter_amended 512 ⟨700, true, true⟩).2.2.1
      (by decide) rfl (by decide)
    simpa using h

/-- A folder name present remotely stays present through the folder
loop: the loop only appends. -/
theorem syncFoldersPass_mono (ls : List LFolder) :
    ∀ (remote : List RFolder) (nm : String),
      remote.any (fun rf => rf.name == nm) = true →
      (syncFoldersPass remote ls).1.any (fun rf => rf.name == nm) = true := by
  induction ls with
  | nil => intro remote nm h; exact h
  | cons l ls ih =>
    intro remote nm h
    unfold syncFoldersPass
    by_cases hc : remote.any (fun rf => rf.name == l.name) = true
    · rw [if_pos hc]; exact ih remote nm h
    · rw [if_neg hc]
      show (syncFoldersPass (remote ++ [⟨l.name, l.color⟩]) ls).1.any _ = true
      apply ih
      rw [List.any_append]
      simp [h]

/-- After the folder loop, every local folder name is present
remotely. -/
theorem syncFoldersPass_covers (ls : List LFolder) :
    ∀ remote, ∀ l ∈ ls,
      (syncFoldersPass remote ls).1.any (fun rf => rf.name == l.name) = true := by
  induction ls with
  | nil => intro remote l hl; cases hl
  | cons x xs ih =>
    intro remote l hl
    unfold syncFoldersPass
    by_cases hc : remote.any (fun rf => rf.name == x.name) = true
    · rw [if_pos hc]
      rcases List.mem_cons.mp hl with rfl | hl
      · exact syncFoldersPass_mono xs remote l.name hc
      · exact ih remote l hl
    · rw [if_neg hc]
      show (syncFoldersPass (remote ++ [⟨x.name, x.color⟩]) xs).1.any _ = true
      rcases List.mem_cons.mp hl with rfl | hl
      · apply syncFoldersPass_mono
        rw [List.any_append]
        simp
      · exact ih _ l hl

/-- When every local folder name is already present remotely, the
folder loop changes nothing and creates nothing. -/
theorem syncFoldersPass_fixpoint (ls : List LFolder) :
    ∀ remote, (∀ l ∈ ls, remote.any (fun rf => rf.name == l.name) = true) →
      syncFoldersPass remote ls = (remote, 0) := by
  induction ls with
  | nil => intro remote _; rfl
  | cons x xs ih =>
    intro remote h
    unfold syncFoldersPass
    rw [if_pos (h x (List.mem_cons_self x xs))]
    exact ih remote (fun l hl => h l (List.mem_cons_of_mem x hl))

/-- A file name present remotely stays present through the file loop. -/
theorem syncFilesPass_mono (ls : List LFile) :
    ∀ (remote : List RFile) (nm : String),
      remote.any (fun rf => rf.name == nm) = true →
      (syncFilesPass remote ls).1.any (fun rf => rf.name == nm) = true := by
  induction ls with
  | nil => intro remote nm h; exact h
  | cons l ls ih =>
    intro remote nm h
    unfold syncFilesPass
    by_cases hc : remote.any (fun rf => rf.name == l.name) = true
    · rw [if_pos hc]; exact ih remote nm h
    · rw [if_neg hc]
      show (syncFilesPass (remote ++ [⟨l.name⟩]) ls).1.any _ = true
      apply ih
      rw [List.any_append]
      simp [h]

/-- After the file loop, every local file name is present remotely. -/
theorem syncFilesPass_covers (ls : List LFile) :
    ∀ remote, ∀ l ∈ ls,
      (syncFilesPass remote ls).1.any (fun rf => rf.name == l.name) = true := by
  induction ls with
  | nil => intro remote l hl; cases hl
  | cons x xs ih =>
    intro remote l hl
    unfold syncFilesPass
    by_cases hc : remote.any (fun rf => rf.name == x.name) = true
    · rw [if_pos hc]
      rcases List.mem_cons.mp hl with rfl | hl
      · exact syncFilesPass_mono xs remote l.name hc
      · exact ih remote l hl
    · rw [if_neg hc]
      show (syncFilesPass (remote ++ [⟨x.name⟩]) xs).1.any _ = true
      rcases List.mem_cons.mp hl with rfl | hl
      · apply syncFilesPass_mono
        rw [List.any_append]
        simp
      · exact ih _ l hl

/-- When every local file name is already present remotely, the file
loop changes nothing and creates nothing. -/
theorem syncFilesPass_fixpoint (ls : List LFile) :
    ∀ remote, (∀ l ∈ ls, remote.any (fun rf => rf.name == l.name) = true) →
      syncFilesPass remote ls = (remote, 0) := by
  induction ls with
  | nil => intro remote _; rfl
  | cons x xs ih =>
    intro remote h
    unfold syncFilesPass
    rw [if_pos (h x (List.mem_cons_self x xs))]
    exact ih remote (fun l hl => h l (List.mem_cons_of_mem x hl))

/-- Claim C3: `syncFilesToSupabase` run twice over the same local files
and folders with no intervening mutation is idempotent — everything the
first pass created is found by the second pass's existing-by-name
query, the remote state is unchanged, and the second pass performs zero
remote creations (so no duplicate remote folders or files appear). -/
theorem syncTwice_idempotent (user : Bool) (st : RemoteState)
    (localFiles : List LFile) (localFolders : List LFolder) :
    syncFilesToSupabase user
        (syncFilesToSupabase user st localFiles localFolders).1 localFiles localFolders =
      ((syncFilesToSupabase user st localFiles localFolders).1, 0) := by
  cases user with
  | false => rfl
  | true =>
    have hfo := syncFoldersPass_fixpoint localFolders
      (syncFoldersPass st.folders localFolders).1
      (fun l hl => syncFoldersPass_covers localFolders st.folders l hl)
    have hfi := syncFilesPass_fixpoint localFiles
      (syncFilesPass st.files localFiles).1
      (fun l hl => syncFilesPass_covers localFiles st.files l hl)
    simp [syncFilesToSupabase, hfo, hfi]

/-- One caught folder iteration never loses a remotely present name. -/
theorem catchOr_folder_mono (failed : Bool) (remote : List RFolder) (l : LFolder)
    (nm : String) (h : remote.any (fun rf => rf.name == nm) = true) :
    (catchOr remote (folderAttempt failed remote l)).any (fun rf => rf.name == nm) = true := by
  cases failed with
  | true => simpa [folderAttempt, catchOr] using h
  | false =>
    by_cases hc : remote.any (fun rf => rf.name == l.name) = true
    · simpa [folderAttempt, catchOr, hc] using h
    · simp [folderAttempt, catchOr, hc, List.any_append, h]

/-- A non-failing folder iteration leaves its own name present. -/
theorem catchOr_folder_self (remote : List RFolder) (l : LFolder) :
    (catchOr remote (folderAttempt false remote l)).any
      (fun rf => rf.name == l.name) = true := by
  by_cases hc : remote.any (fun rf => rf.name == l.name) = true
  · simp [folderAttempt, catchOr, hc]
  · simp [folderAttempt, catchOr, hc, List.any_append]

/-- One caught file iteration never loses a remotely present name. -/
theorem catchOr_file_mono (failed : Bool) (remote : List RFile) (l : LFile)
    (nm : String) (h : remote.any (fun rf => rf.name == nm) = true) :
    (catchOr remote (fileAttempt failed remote l)).any (fun rf => rf.name == nm) = true := by
  cases failed with
  | true => simpa [fileAttempt, catchOr] using h
  | false =>
    by_cases hc : remote.any (fun rf => rf.name == l.name) = true
    · simpa [fileAttempt, catchOr, hc] using h
    · simp [fileAttempt, catchOr, hc, List.any_append, h]

/-- A non-failing file iteration leaves its own name present. -/
theorem catchOr_file_self (remote : List RFile) (l : LFile) :
    (catchOr remote (fileAttempt false remote l)).any
      (fun rf => rf.name == l.name) = true := by
  by_cases hc : remote.any (fun rf => rf.name == l.name) = true
  · simp [fileAttempt, catchOr, hc]
  · simp [fileAttempt, catchOr, hc, List.any_append]

/-- The folder loop reaches every item no matter which items fail. -/
theorem syncFoldersCatch_log (fail : Nat → Bool) (ls : List LFolder) :
    ∀ remote i, (syncFoldersCatch fail remote ls i).2 = ls.map (fun l => l.name) := by
  induction ls with
  | nil => intro remote i; rfl
  | cons l xs ih =>
    intro remote i
    show l.name :: (syncFoldersCatch fail _ xs (i + 1)).2 = _
    rw [ih]
    rfl

/-- The file loop reaches every item no matter which items fail. -/
theorem syncFilesCatch_log (fail : Nat → Bool) (ls : List LFile) :
    ∀ remote i, (syncFilesCatch fail remote ls i).2 = ls.map (fun l => l.name) := by
  induction ls with
  | nil => intro remote i; rfl
  | cons l xs ih =>
    intro remote i
    show l.name :: (syncFilesCatch fail _ xs (i + 1)).2 = _
    rw [ih]
    rfl

/-- Remotely present folder names survive the whole caught loop. -/
theorem syncFoldersCatch_mono (fail : Nat → Bool) (ls : List LFolder) :
    ∀ remote i nm, remote.any (fun rf => rf.name == nm) = true →
      (syncFoldersCatch fail remote ls i).1.any (fun rf => rf.name == nm) = true := by
  induction ls with
  | nil => intro remote i nm h; exact h
  | cons l xs ih =>
    intro remote i nm h
    show (syncFoldersCatch fail (catchOr remote (folderAttempt (fail i) remote l))
      xs (i + 1)).1.any _ = true
    exact ih _ _ nm (catchOr_folder_mono (fail i) remote l nm h)

/-- Remotely present file names survive the whole caught loop. -/
theorem syncFilesCatch_mono (fail : Nat → Bool) (ls : List LFile) :
    ∀ remote i nm, remote.any (fun rf => rf.name == nm) = true →
      (syncFilesCatch fail remote ls i).1.any (fun rf => rf.name == nm) = true := by
  induction ls with
  | nil => intro remote i nm h; exact h
  | cons l xs ih =>
    intro remote i nm h
    show (syncFilesCatch fail (catchOr remote (fileAttempt (fail i) remote l))
      xs (i + 1)).1.any _ = true
    exact ih _ _ nm (catchOr_file_mono (fail i) remote l nm h)

/-- Every non-failing folder item is synced, whatever other items
failed before or after it. -/
theorem syncFoldersCatch_covers (fail : Nat → Bool) (ls : List LFolder) :
    ∀ remote i j, (hj : j < ls.length) → fail (i + j) = false →
      (syncFoldersCatch fail remote ls i).1.any
        (fun rf => rf.name == (ls.get ⟨j, hj⟩).name) = true := by
  induction ls with
  | nil => intro remote i j hj; exact absurd hj (Nat.not_lt_zero j)
  | cons l xs ih =>
    intro remote i j hj hfail
    show (syncFoldersCatch fail (catchOr remote (folderAttempt (fail i) remote l))
      xs (i + 1)).1.any _ = true
    cases j with
    | zero =>
      have hf : fail i = false := hfail
      rw [hf]
      exact syncFoldersCatch_mono fail xs _ (i + 1) l.name (catchOr_folder_self remote l)
    | succ k =>
      have hk : k < xs.length := Nat.lt_of_succ_lt_succ hj
      have hshift : fail ((i + 1) + k) = false := by
        have harith : i + (k + 1) = (i + 1) + k := by omega
        rwa [harith] at hfail
      exact ih (catchOr remote (folderAttempt (fail i) remote l)) (i + 1) k hk hshift

/-- Every non-failing file item is synced, whatever other items failed
before or after it. -/
theorem syncFilesCatch_covers (fail : Nat → Bool) (ls : List LFile) :
    ∀ remote i j, (hj : j < ls.length) → fail (i + j) = false →
      (syncFilesCatch fail remote ls i).1.any
        (fun rf => rf.name == (ls.get ⟨j, hj⟩).name) = true := by
  induction ls with
  | nil => intro remote i j hj; exact absurd hj (Nat.not_lt_zero j)
  | cons l xs ih =>
    intro remote i j hj hfail
    show (syncFilesCatch fail (catchOr remote (fileAttempt (fail i) remote l))
      xs (i + 1)).1.any _ = true
    cases j with
    | zero =>
      have hf : fail i = false := hfail
      rw [hf]
      exact syncFilesCatch_mono fail xs _ (i + 1) l.name (catchOr_file_self remote l)
    | succ k =>
      have hk : k < xs.length := Nat.lt_of_succ_lt_succ hj
      have hshift : fail ((i + 1) + k) = false := by
        have harith : i + (k + 1) = (i + 1) + k := by omega
        rwa [harith] at hfail
      exact ih (catchOr remote (fileAttempt (fail i) remote l)) (i + 1) k hk hshift

/-- Claim C4: per-item failure isolation of the reconciliation pass:
for every pattern of per-item failures, both loops still reach every
item (the logs list all of them, in order), and every item whose own
remote operations do not fail is synced — failing items never abort the
processing of the items after them. -/
theorem syncPass_isolation (failFolder failFile : Nat → Bool) (st : RemoteState)
    (localFiles : List LFile) (localFolders : List LFolder) :
    (syncPassCatch failFolder failFile st localFiles localFolders).2.1 =
      localFolders.map (fun l => l.name) ∧
    (syncPassCatch failFolder failFile st localFiles localFolders).2.2 =
      localFiles.map (fun l => l.name) ∧
    (∀ j, (hj : j < localFolders.length) → failFolder j = false →
      (syncPassCatch failFolder failFile st localFiles localFolders).1.folders.any
        (fun rf => rf.name == (localFolders.get ⟨j, hj⟩).name) = true) ∧
    (∀ j, (hj : j < localFiles.length) → failFile j = false →
      (syncPassCatch failFolder failFile st localFiles localFolders).1.files.any
        (fun rf => rf.name == (localFiles.get ⟨j, hj⟩).name) = true) := by
  refine ⟨?_, ?_, ?_, ?_⟩
  · exact syncFoldersCatch_log failFolder localFolders st.folders 0
  · exact syncFilesCatch_log failFile localFiles st.files 0
  · intro j hj hf
    have h := syncFoldersCatch_covers failFolder localFolders st.folders 0 j hj
      (by simpa using hf)
    exact h
  · intro j hj hf
    have h := syncFilesCatch_covers failFile localFiles st.files 0 j hj
      (by simpa using hf)
    exact h

/-- Witness for C4: with three folders and the middle one failing, the
loop still reaches all three and the third is synced. -/
theorem syncPass_isolation_witness :
    (syncPassCatch (fun n => n == 1) (fun _ => false) ⟨[], []⟩ [] sampleLFolders).2.1 =
      ["A", "B", "C"] ∧
    (syncPassCatch (fun n => n == 1) (fun _ => false) ⟨[], []⟩ [] sampleLFolders).1.folders.any
      (fun rf => rf.name == "C") = true := by
  constructor
  · have h := (syncPass_isolation (fun n => n == 1) (fun _ => false)
      ⟨[], []⟩ [] sampleLFolders).1
    simpa [sampleLFolders] using h
  · have h := (syncPass_isolation (fun n => n == 1) (fun _ => false)
      ⟨[], []⟩ [] sampleLFolders).2.2.1 2 (by decide) (by decide)
    simpa [sampleLFolders] using h

/-- Claim C7: `shareFile` fails with the user-not-found error when no
principal matches the email; with the caller authenticated and the
recipient and target resolved, it fails with the ownership error when
the caller does not own the target, fails with the already-shared error
when the recipient is already in the target's `shared_with` list, and
otherwise appends the recipient to the denormalized list and inserts
the grant row — after which sharing again with the same recipient fails
with the already-shared error. -/
theorem shareFile_spec (db : ShareDb) (fid email : String) (p : Permission) (uid : String)
    (hauth : db.currentUser = some uid) :
    (findUserByEmail db.users email = none →
      shareFile db fid email p = Except.error ShareError.userNotFound) ∧
    (∀ r f, findUserByEmail db.users email = some r →
      findFileRow db.files fid = some f →
      (f.userId ≠ uid → shareFile db fid email p = Except.error ShareError.forbidden) ∧
      (f.userId = uid → r.id ∈ f.sharedWith →
        shareFile db fid email p = Except.error ShareError.alreadyShared) ∧
      (f.userId = uid → r.id ∉ f.sharedWith →
        shareFile db fid email p = Except.ok (shareSuccessDb db fid uid r.id p) ∧
        shareFile (shareSuccessDb db fid uid r.id p) fid email p =
          Except.error ShareError.alreadyShared)) := by
  constructor
  · intro hn
    simp only [shareFile, hn]
  · intro r f hr hf
    refine ⟨?_, ?_, ?_⟩
    · intro hne
      simp only [shareFile, hr, hauth, hf]
      rw [if_pos (bne_iff_ne.mpr hne)]
    · intro huid hmem
      simp only [shareFile, hr, hauth, hf]
      rw [if_neg (by simp [huid]), if_pos (List.any_eq_true.mpr ⟨r.id, hmem, by simp⟩)]
    · intro huid hnmem
      have hany : ¬ (f.sharedWith.any (fun x => x == r.id)) = true := by
        intro hc
        obtain ⟨x, hx, hxe⟩ := List.any_eq_true.mp hc
        exact hnmem (beq_iff_eq.mp hxe ▸ hx)
      constructor
      · simp only [shareFile, hr, hauth, hf]
        rw [if_neg (by simp [huid]), if_neg hany]
      · have hgg : ((fun x : FileRow => x.id == fid) ∘ (fun x : FileRow =>
            if x.id == fid then { x with sharedWith := x.sharedWith ++ [r.id] } else x)) =
            (fun x : FileRow => x.id == fid) := by
          funext a
          by_cases ha : a.id = fid
          · simp [Function.comp, ha]
          · simp [Function.comp, ha]
        have hfind0 : db.files.find? (fun x => x.id == fid) = some f := hf
        have hfid0 := List.find?_some hfind0
        have hfid : (f.id == fid) = true := hfid0
        have hfind : findFileRow (shareSuccessDb db fid uid r.id p).files fid =
            some { f with sharedWith := f.sharedWith ++ [r.id] } := by
          show (db.files.map _).find? _ = _
          rw [List.find?_map, hgg]
          unfold findFileRow at hf
          rw [hf]
          simp [beq_iff_eq.mp hfid]
        have h1 : findUserByEmail (shareSuccessDb db fid uid r.id p).users email =
            some r := hr
        have h2 : (shareSuccessDb db fid uid r.id p).currentUser = some uid := hauth
        simp only [shareFile, h1, h2, hfind]
        rw [if_neg (by simp [huid]), if_pos (by simp [List.any_append])]

/-- Witness for C7: in the sample database, sharing `f1` with the
recipient resolved case-insensitively from the email succeeds and
records the grant, and sharing again with the same recipient fails with
the already-shared error. -/
theorem shareFile_spec_witness :
    shareFile sampleShareDb "f1" "BOB@example.com" Permission.view =
      Except.ok (shareSuccessDb sampleShareDb "f1" "alice" "bob" Permission.view) ∧
    shareFile (shareSuccessDb sampleShareDb "f1" "alice" "bob" Permission.view)
        "f1" "BOB@example.com" Permission.view =
      Except.error ShareError.alreadyShared := by
  have h := (shareFile_spec sampleShareDb "f1" "BOB@example.com" Permission.view "alice"
      rfl).2 ⟨"bob", "bob@example.com"⟩ ⟨"f1", "alice", []⟩ (by decide) (by decide)
  exact h.2.2 rfl (by decide)

end GmotFiles
